import Mathlib

/-!
Shallow embedding of the indicator/fetch pipeline of `Stocks_dashboard.py`.

The dashboard holds one pandas DataFrame of daily price observations in
Streamlit session state, computes technical indicators over its `ClosePrice`
and `TotalTradedQuantity` columns, and overlays them as chart traces.
Prices and volumes are embedded as rationals (the float computations of the
source performed exactly); pandas NaN-padding of rolling statistics is
embedded as `Option`, and the irrational rolling standard deviation lives
in `ℝ` via `Real.sqrt` of the (rational) rolling sample variance.
-/

/-- The trailing window of width `w` ending at index `t` (inclusive of the
current bar), as used by `Series.rolling(window=w)`: the elements of `xs` at
indices `t+1-w`, …, `t`. -/
def windowAt (w : Nat) (xs : List ℚ) (t : Nat) : List ℚ :=
  (xs.take (t + 1)).drop (t + 1 - w)

/-- `Series.rolling(window=w).mean()` evaluated at index `t`: the arithmetic
mean of the trailing `w`-bar window, `none` (pandas NaN) while fewer than `w`
observations are available or `t` is out of range. -/
def rollingMean (w : Nat) (xs : List ℚ) (t : Nat) : Option ℚ :=
  if w ≤ t + 1 ∧ t < xs.length then some ((windowAt w xs t).sum / (w : ℚ))
  else none

/-- `Series.rolling(window=w).std()` squared, i.e. the trailing sample
variance (pandas default `ddof=1`): Σ (x − mean)² / (w − 1) over the window;
`none` where the rolling mean is undefined or `w < 2`. -/
def rollingVar (w : Nat) (xs : List ℚ) (t : Nat) : Option ℚ :=
  match rollingMean w xs t with
  | none => none
  | some m =>
      if 2 ≤ w then
        some (((windowAt w xs t).map (fun x => (x - m) ^ 2)).sum / ((w : ℚ) - 1))
      else none

/-- `Series.rolling(window=w).std()` at index `t`: the square root of the
trailing sample variance. -/
noncomputable def rollingStd (w : Nat) (xs : List ℚ) (t : Nat) : Option ℝ :=
  match rollingVar w xs t with
  | none => none
  | some v => some (Real.sqrt (v : ℝ))

/-- Upper Bollinger band, `bb_upper = sma + 2 * std` (source line 111). -/
noncomputable def bbUpper (xs : List ℚ) (t : Nat) : Option ℝ :=
  match rollingMean 20 xs t, rollingStd 20 xs t with
  | some m, some s => some ((m : ℝ) + 2 * s)
  | _, _ => none

/-- Lower Bollinger band, `bb_lower = sma - 2 * std` (source line 112). -/
noncomputable def bbLower (xs : List ℚ) (t : Nat) : Option ℝ :=
  match rollingMean 20 xs t, rollingStd 20 xs t with
  | some m, some s => some ((m : ℝ) - 2 * s)
  | _, _ => none

/-- `Series.cumsum()`: running sums, `(cumsum xs)[t] = xs[0] + … + xs[t]`. -/
def cumsum : List ℚ → List ℚ
  | [] => []
  | a :: rest => a :: (cumsum rest).map (fun b => a + b)

/-- The VWAP column of source line 116:
`(ClosePrice * TotalTradedQuantity).cumsum() / TotalTradedQuantity.cumsum()`,
an elementwise quotient of running sums. -/
def vwapList (closes vols : List ℚ) : List ℚ :=
  List.zipWith (fun a b => a / b) (cumsum (List.zipWith (fun c v => c * v) closes vols)) (cumsum vols)

/-- The pandas `ewm` smoothing factor for a given span: `α = 2 / (span + 1)`. -/
def ewmAlpha (span : Nat) : ℚ := 2 / ((span : ℚ) + 1)

/-- Online computation of `Series.ewm(span).mean()` with the pandas defaults
(`adjust=True`, `min_periods=0`): running weighted numerator and denominator,
each bar emitting their quotient. -/
def ewmScan (a : ℚ) : List ℚ → ℚ → ℚ → List ℚ
  | [], _, _ => []
  | x :: rest, num, den =>
      ((1 - a) * num + x) / ((1 - a) * den + 1)
        :: ewmScan a rest ((1 - a) * num + x) ((1 - a) * den + 1)

/-- `Series.ewm(span=span).mean()` (source line 106): exponentially weighted
mean with smoothing factor `ewmAlpha span`, defined from the first bar. -/
def ewmMean (span : Nat) (xs : List ℚ) : List ℚ :=
  ewmScan (ewmAlpha span) xs 0 0

/-- The columns of the fetched price DataFrame that the dashboard reads,
plus the `VWAP` column that the VWAP branch of `add_indicator` writes into
the stored frame (`none` while that column has never been assigned). -/
structure DataFrame where
  dates : List Nat
  openPrice : List ℚ
  highPrice : List ℚ
  lowPrice : List ℚ
  closePrice : List ℚ
  totalTradedQuantity : List ℚ
  vwapCol : Option (List ℚ)
deriving DecidableEq

/-- pandas `DataFrame.empty`: the frame has no rows. -/
def DataFrame.isEmpty (df : DataFrame) : Bool := df.dates.isEmpty

/-- The mutable state `add_indicator` acts on: the session DataFrame `data`
and the names of the traces so far added to the plotly figure `fig` (the
y-values handed to each trace are exactly the indicator series defined
above; chart rendering itself is an external collaborator). -/
structure DashState where
  data : DataFrame
  traces : List String
deriving DecidableEq

/-- The `add_indicator` helper (source lines 101-123): dispatch on the
selector string; each branch adds its trace(s), and the VWAP branch also
assigns the computed column into the stored DataFrame (`data['VWAP'] = …`,
source line 116). Any other string falls through the if/elif chain. -/
def add_indicator (indicator : String) (s : DashState) : DashState :=
  if indicator = "20-Day SMA" then
    { s with traces := s.traces ++ ["SMA (20)"] }
  else if indicator = "20-Day EMA" then
    { s with traces := s.traces ++ ["EMA (20)"] }
  else if indicator = "20-Day Bollinger Bands" then
    { s with traces := s.traces ++ ["BB Upper", "BB Lower"] }
  else if indicator = "VWAP" then
    { s with
      data := { s.data with
        vwapCol := some (vwapList s.data.closePrice s.data.totalTradedQuantity) }
      traces := s.traces ++ ["VWAP"] }
  else if indicator = "50-Day DMA" then
    { s with traces := s.traces ++ ["DMA (50)"] }
  else if indicator = "200-Day DMA" then
    { s with traces := s.traces ++ ["DMA (200)"] }
  else s

/-- Outcome of the provider call
`capital_market.price_volume_and_deliverable_position_data(...)`: either a
DataFrame, or a raised exception with its message. -/
inductive FetchResult where
  | fetched (df : DataFrame)
  | raised (msg : String)
deriving DecidableEq

/-- The user-visible message the fetch handler emits. -/
inductive Msg where
  | success
  | errorNoData
  | errorFetch (e : String)
deriving DecidableEq

/-- The Fetch Data button handler (source lines 60-74): on an exception show
the fetch error; on an empty frame show the no-data error; otherwise store
the frame in `st.session_state["stock_data"]` and report success. The
session slot is written only in the last case. -/
def fetchHandler (r : FetchResult) (sess : Option DataFrame) :
    Option DataFrame × Msg :=
  match r with
  | FetchResult.raised m => (sess, Msg.errorFetch m)
  | FetchResult.fetched df =>
      if df.isEmpty then (sess, Msg.errorNoData)
      else (some df, Msg.success)

/-- The guard of source line 77: the charting/indicator stage runs only if
`"stock_data" in st.session_state and not st.session_state["stock_data"].empty`;
`activeData sess` is the frame handed to that stage, if any. -/
def activeData : Option DataFrame → Option DataFrame
  | none => none
  | some df => if df.isEmpty then none else some df

/-- Modelled from the spec: the Forecast Adapter belongs to a variant script
of this repository that is absent from `src/`. Per spec §4.3 it fits a
regression model on a lag-1 feature and then predicts the future by
evaluating the fitted model `f` on the same fixed last-known `Lag_1` value
once per forecast day. -/
def forecastAdapter (f : ℚ → ℚ) (lastLag : ℚ) (forecastDays : Nat) : List ℚ :=
  (List.range forecastDays).map (fun _ => f lastLag)

/-! ### Window lemmas -/

lemma windowAt_length (w : Nat) (xs : List ℚ) (t : Nat) (h1 : w ≤ t + 1)
    (h2 : t < xs.length) : (windowAt w xs t).length = w := by
  simp only [windowAt, List.length_drop, List.length_take]
  omega

lemma windowAt_getD (w : Nat) (xs : List ℚ) (t i : Nat) (h1 : w ≤ t + 1)
    (h2 : t < xs.length) (hi : i < w) :
    (windowAt w xs t).getD i 0 = xs.getD (t + 1 - w + i) 0 := by
  rw [List.getD_eq_getElem?_getD, List.getD_eq_getElem?_getD]
  unfold windowAt
  rw [List.getElem?_drop, List.getElem?_take_of_lt (by omega)]

lemma sum_eq_sum_getD (l : List ℚ) :
    l.sum = ∑ i ∈ Finset.range l.length, l.getD i 0 := by
  induction l with
  | nil => simp
  | cons a tl ih =>
      rw [List.sum_cons, ih, List.length_cons, Finset.sum_range_succ']
      simp [add_comm]

lemma windowAt_sum (w : Nat) (xs : List ℚ) (t : Nat) (h1 : w ≤ t + 1)
    (h2 : t < xs.length) :
    (windowAt w xs t).sum = ∑ i ∈ Finset.range w, xs.getD (t + 1 - w + i) 0 := by
  rw [sum_eq_sum_getD, windowAt_length w xs t h1 h2]
  exact Finset.sum_congr rfl
    (fun i hi => windowAt_getD w xs t i h1 h2 (Finset.mem_range.mp hi))

/-- C1: for a series with at least 20 bars, SMA(20) is defined exactly at
indices `t ≥ 19` and there equals the arithmetic mean of the closes at
indices `t-19` through `t`. -/
theorem sma20_trailing_mean (xs : List ℚ) (t : Nat) (hlen : 20 ≤ xs.length) :
    ((rollingMean 20 xs t).isSome ↔ 19 ≤ t ∧ t < xs.length) ∧
    (19 ≤ t → t < xs.length →
      rollingMean 20 xs t =
        some ((∑ i ∈ Finset.range 20, xs.getD (t - 19 + i) 0) / 20)) := by
  constructor
  · unfold rollingMean
    by_cases h : 20 ≤ t + 1 ∧ t < xs.length
    · rw [if_pos h]
      simp only [Option.isSome_some, true_iff]
      omega
    · rw [if_neg h]
      simp only [Option.isSome_none, Bool.false_eq_true, false_iff]
      omega
  · intro h1 h2
    unfold rollingMean
    rw [if_pos ⟨by omega, h2⟩, windowAt_sum 20 xs t (by omega) h2]
    have h3 : t + 1 - 20 = t - 19 := by omega
    rw [h3]
    norm_num

/-- Witness for C1 at a concrete 20-bar series and `t = 19`. -/
theorem sma20_trailing_mean_witness :
    rollingMean 20 (List.replicate 20 (1 : ℚ)) 19 =
      some ((∑ i ∈ Finset.range 20,
        (List.replicate 20 (1 : ℚ)).getD (19 - 19 + i) 0) / 20) :=
  (sma20_trailing_mean (List.replicate 20 1) 19 (by simp)).2 (by omega) (by simp)

/-- C5: a series shorter than the window makes the windowed indicators
(SMA/DMA for any window, hence 20, 50 and 200, and for a series shorter than
20 bars also the Bollinger machinery) undefined at every index, rather than
raising an error. -/
theorem short_series_indicator_undefined (xs : List ℚ) (w t : Nat)
    (h : xs.length < w) :
    rollingMean w xs t = none ∧ rollingVar w xs t = none ∧
    (xs.length < 20 →
      rollingStd 20 xs t = none ∧ bbUpper xs t = none ∧ bbLower xs t = none) := by
  have hm : rollingMean w xs t = none := by
    have hc : ¬(w ≤ t + 1 ∧ t < xs.length) := by omega
    unfold rollingMean
    rw [if_neg hc]
  refine ⟨hm, ?_, ?_⟩
  · unfold rollingVar
    rw [hm]
  · intro h20
    have hm20 : rollingMean 20 xs t = none := by
      have hc : ¬(20 ≤ t + 1 ∧ t < xs.length) := by omega
      unfold rollingMean
      rw [if_neg hc]
    have hv : rollingVar 20 xs t = none := by
      unfold rollingVar
      rw [hm20]
    have hs : rollingStd 20 xs t = none := by
      unfold rollingStd
      rw [hv]
    refine ⟨hs, ?_, ?_⟩
    · unfold bbUpper
      rw [hm20, hs]
    · unfold bbLower
      rw [hm20, hs]

/-- Witness for C5 at a concrete 1-bar series, window 20, index 0. -/
theorem short_series_indicator_undefined_witness :
    rollingMean 20 [(5 : ℚ)] 0 = none ∧ rollingVar 20 [(5 : ℚ)] 0 = none ∧
    ([(5 : ℚ)].length < 20 → rollingStd 20 [(5 : ℚ)] 0 = none ∧
      bbUpper [(5 : ℚ)] 0 = none ∧ bbLower [(5 : ℚ)] 0 = none) :=
  short_series_indicator_undefined [(5 : ℚ)] 20 0 (by simp)

/-! ### Cumulative-sum lemmas -/

lemma cumsum_length (xs : List ℚ) : (cumsum xs).length = xs.length := by
  induction xs with
  | nil => rfl
  | cons a tl ih => simp [cumsum, ih]

lemma cumsum_getD (xs : List ℚ) (t : Nat) (h : t < xs.length) :
    (cumsum xs).getD t 0 = ∑ i ∈ Finset.range (t + 1), xs.getD i 0 := by
  induction xs generalizing t with
  | nil => simp at h
  | cons a tl ih =>
      cases t with
      | zero => simp [cumsum]
      | succ t =>
          have ht : t < tl.length := by
            simp only [List.length_cons] at h
            omega
          have hcons : cumsum (a :: tl) = a :: (cumsum tl).map (fun b => a + b) := rfl
          rw [hcons, List.getD_cons_succ]
          have hmap : ((cumsum tl).map (fun b => a + b)).getD t 0
              = a + (cumsum tl).getD t 0 := by
            rw [List.getD_eq_getElem _ _ (by simp [cumsum_length]; omega),
                List.getElem_map,
                ← List.getD_eq_getElem (cumsum tl) 0 (by rw [cumsum_length]; omega)]
          have hsum : ∑ i ∈ Finset.range (t + 1 + 1), (a :: tl).getD i 0
              = (∑ i ∈ Finset.range (t + 1), tl.getD i 0) + a := by
            rw [Finset.sum_range_succ']
            simp
          rw [hmap, ih t ht, hsum]
          exact add_comm _ _

lemma zipWith_getD (f : ℚ → ℚ → ℚ) (as bs : List ℚ) (t : Nat)
    (ha : t < as.length) (hb : t < bs.length) :
    (List.zipWith f as bs).getD t 0 = f (as.getD t 0) (bs.getD t 0) := by
  rw [List.getD_eq_getElem?_getD, List.getD_eq_getElem?_getD,
      List.getD_eq_getElem?_getD, List.getElem?_zipWith,
      List.getElem?_eq_getElem ha, List.getElem?_eq_getElem hb]
  rfl

/-- C3: for every series, the VWAP column is aligned with the series (defined
from the very first bar) and at each index `t` equals the running sum of
close·volume over bars `0..t` divided by the running sum of volume over the
same range. -/
theorem vwap_running_ratio (closes vols : List ℚ) (t : Nat)
    (hlen : vols.length = closes.length) (ht : t < closes.length) :
    (vwapList closes vols).length = closes.length ∧
    (vwapList closes vols).getD t 0 =
      (∑ i ∈ Finset.range (t + 1), closes.getD i 0 * vols.getD i 0) /
      (∑ i ∈ Finset.range (t + 1), vols.getD i 0) := by
  have hzl : (List.zipWith (fun c v => c * v) closes vols).length = closes.length := by
    rw [List.length_zipWith, hlen]
    omega
  constructor
  · simp only [vwapList, List.length_zipWith, cumsum_length, hzl, hlen]
    omega
  · unfold vwapList
    rw [zipWith_getD _ _ _ t (by rw [cumsum_length, hzl]; exact ht)
        (by rw [cumsum_length, hlen]; exact ht)]
    rw [cumsum_getD _ t (by rw [hzl]; exact ht), cumsum_getD _ t (by rw [hlen]; exact ht)]
    congr 1
    refine Finset.sum_congr rfl (fun i hi => ?_)
    have hi2 : i < closes.length := by
      have := Finset.mem_range.mp hi
      omega
    rw [zipWith_getD _ _ _ i hi2 (by rw [hlen]; exact hi2)]

/-- Witness for C3 at a concrete 2-bar series and `t = 1`. -/
theorem vwap_running_ratio_witness :
    (vwapList [(2 : ℚ), 3] [(1 : ℚ), 4]).length = [(2 : ℚ), 3].length ∧
    (vwapList [(2 : ℚ), 3] [(1 : ℚ), 4]).getD 1 0 =
      (∑ i ∈ Finset.range 2, [(2 : ℚ), 3].getD i 0 * [(1 : ℚ), 4].getD i 0) /
      (∑ i ∈ Finset.range 2, [(1 : ℚ), 4].getD i 0) :=
  vwap_running_ratio [(2 : ℚ), 3] [(1 : ℚ), 4] 1 (by simp) (by simp)

/-! ### Bollinger lemmas -/

lemma rollingVar_isSome (xs : List ℚ) (u : Nat) :
    (rollingVar 20 xs u).isSome = (rollingMean 20 xs u).isSome := by
  unfold rollingVar
  cases hm : rollingMean 20 xs u <;> simp

lemma rollingStd_isSome (xs : List ℚ) (u : Nat) :
    (rollingStd 20 xs u).isSome = (rollingMean 20 xs u).isSome := by
  rw [← rollingVar_isSome xs u]
  unfold rollingStd
  cases hv : rollingVar 20 xs u <;> simp

lemma rollingVar_nonneg (w : Nat) (xs : List ℚ) (t : Nat) (v : ℚ)
    (h : rollingVar w xs t = some v) : 0 ≤ v := by
  unfold rollingVar at h
  cases hm : rollingMean w xs t with
  | none => rw [hm] at h; exact absurd h (by simp)
  | some m =>
      rw [hm] at h
      have h2 : (if 2 ≤ w then
          some (((windowAt w xs t).map (fun x => (x - m) ^ 2)).sum / ((w : ℚ) - 1))
        else none) = some v := h
      by_cases hw : 2 ≤ w
      · rw [if_pos hw] at h2
        rw [← Option.some.inj h2]
        apply div_nonneg
        · apply List.sum_nonneg
          intro x hx
          obtain ⟨y, _, hy⟩ := List.mem_map.mp hx
          rw [← hy]
          positivity
        · have hwq : (2 : ℚ) ≤ (w : ℚ) := by exact_mod_cast hw
          linarith
      · rw [if_neg hw] at h2
        exact absurd h2 (by simp)

/-- C2: wherever defined, the Bollinger bands are SMA(20) ± 2·σ where σ is
the square root of the trailing 20-bar sample variance of the closes, the
band gap is `4·σ`, and both bands share SMA(20)'s undefined prefix. -/
theorem bollinger_bands_spec (xs : List ℚ) (t : Nat) (h19 : 19 ≤ t)
    (ht : t < xs.length) :
    (∀ u : Nat, (bbUpper xs u).isSome = (rollingMean 20 xs u).isSome ∧
                (bbLower xs u).isSome = (rollingMean 20 xs u).isSome) ∧
    ∃ m v, rollingMean 20 xs t = some m ∧ rollingVar 20 xs t = some v ∧
      rollingStd 20 xs t = some (Real.sqrt (v : ℝ)) ∧
      bbUpper xs t = some ((m : ℝ) + 2 * Real.sqrt (v : ℝ)) ∧
      bbLower xs t = some ((m : ℝ) - 2 * Real.sqrt (v : ℝ)) ∧
      ((m : ℝ) + 2 * Real.sqrt (v : ℝ)) - ((m : ℝ) - 2 * Real.sqrt (v : ℝ))
        = 4 * Real.sqrt (v : ℝ) ∧
      0 ≤ Real.sqrt (v : ℝ) ∧
      Real.sqrt (v : ℝ) ^ 2 =
        ((((windowAt 20 xs t).map (fun x => (x - m) ^ 2)).sum / 19 : ℚ) : ℝ) := by
  constructor
  · intro u
    constructor
    · unfold bbUpper
      cases hm : rollingMean 20 xs u with
      | none =>
          have hs : rollingStd 20 xs u = none := by
            have := rollingStd_isSome xs u
            rw [hm] at this
            simpa using this
          rw [hs]
          simp
      | some m =>
          have hs : (rollingStd 20 xs u).isSome = true := by
            rw [rollingStd_isSome, hm]
            rfl
          obtain ⟨s, hsv⟩ := Option.isSome_iff_exists.mp hs
          rw [hsv]
          simp
    · unfold bbLower
      cases hm : rollingMean 20 xs u with
      | none =>
          have hs : rollingStd 20 xs u = none := by
            have := rollingStd_isSome xs u
            rw [hm] at this
            simpa using this
          rw [hs]
          simp
      | some m =>
          have hs : (rollingStd 20 xs u).isSome = true := by
            rw [rollingStd_isSome, hm]
            rfl
          obtain ⟨s, hsv⟩ := Option.isSome_iff_exists.mp hs
          rw [hsv]
          simp
  · have hcond : 20 ≤ t + 1 ∧ t < xs.length := ⟨by omega, ht⟩
    have hm : rollingMean 20 xs t = some ((windowAt 20 xs t).sum / (20 : ℚ)) := by
      unfold rollingMean
      rw [if_pos hcond]
      norm_num
    set m : ℚ := (windowAt 20 xs t).sum / (20 : ℚ) with hmdef
    have hv : rollingVar 20 xs t =
        some (((windowAt 20 xs t).map (fun x => (x - m) ^ 2)).sum / 19) := by
      unfold rollingVar
      rw [hm]
      norm_num
    set v : ℚ := ((windowAt 20 xs t).map (fun x => (x - m) ^ 2)).sum / 19 with hvdef
    have hvn : (0 : ℚ) ≤ v := rollingVar_nonneg 20 xs t v hv
    have hvnR : (0 : ℝ) ≤ (v : ℝ) := by exact_mod_cast hvn
    have hs : rollingStd 20 xs t = some (Real.sqrt (v : ℝ)) := by
      unfold rollingStd
      rw [hv]
    refine ⟨m, v, hm, hv, hs, ?_, ?_, by ring, Real.sqrt_nonneg _, ?_⟩
    · unfold bbUpper
      rw [hm, hs]
    · unfold bbLower
      rw [hm, hs]
    · rw [Real.sq_sqrt hvnR]

/-- Witness for C2 at a concrete 20-bar series and `t = 19`. -/
theorem bollinger_bands_spec_witness :
    (∀ u : Nat,
      (bbUpper (List.replicate 20 (3 : ℚ)) u).isSome
        = (rollingMean 20 (List.replicate 20 (3 : ℚ)) u).isSome ∧
      (bbLower (List.replicate 20 (3 : ℚ)) u).isSome
        = (rollingMean 20 (List.replicate 20 (3 : ℚ)) u).isSome) ∧
    ∃ m v, rollingMean 20 (List.replicate 20 (3 : ℚ)) 19 = some m ∧
      rollingVar 20 (List.replicate 20 (3 : ℚ)) 19 = some v ∧
      rollingStd 20 (List.replicate 20 (3 : ℚ)) 19 = some (Real.sqrt (v : ℝ)) ∧
      bbUpper (List.replicate 20 (3 : ℚ)) 19 = some ((m : ℝ) + 2 * Real.sqrt (v : ℝ)) ∧
      bbLower (List.replicate 20 (3 : ℚ)) 19 = some ((m : ℝ) - 2 * Real.sqrt (v : ℝ)) ∧
      ((m : ℝ) + 2 * Real.sqrt (v : ℝ)) - ((m : ℝ) - 2 * Real.sqrt (v : ℝ))
        = 4 * Real.sqrt (v : ℝ) ∧
      0 ≤ Real.sqrt (v : ℝ) ∧
      Real.sqrt (v : ℝ) ^ 2 =
        ((((windowAt 20 (List.replicate 20 (3 : ℚ)) 19).map
            (fun x => (x - m) ^ 2)).sum / 19 : ℚ) : ℝ) :=
  bollinger_bands_spec (List.replicate 20 (3 : ℚ)) 19 (by omega) (by simp)

/-! ### Exponentially weighted mean lemmas -/

lemma ewmScan_length (a : ℚ) (xs : List ℚ) (num den : ℚ) :
    (ewmScan a xs num den).length = xs.length := by
  induction xs generalizing num den with
  | nil => rfl
  | cons x tl ih => simp [ewmScan, ih]

lemma ewmScan_getD (a : ℚ) (xs : List ℚ) (num den : ℚ) (t : Nat)
    (h : t < xs.length) :
    (ewmScan a xs num den).getD t 0 =
      ((1 - a) ^ (t + 1) * num
        + ∑ i ∈ Finset.range (t + 1), (1 - a) ^ (t - i) * xs.getD i 0) /
      ((1 - a) ^ (t + 1) * den
        + ∑ i ∈ Finset.range (t + 1), (1 - a) ^ (t - i)) := by
  induction xs generalizing num den t with
  | nil => simp at h
  | cons x tl ih =>
      have hcons : ewmScan a (x :: tl) num den =
          ((1 - a) * num + x) / ((1 - a) * den + 1)
            :: ewmScan a tl ((1 - a) * num + x) ((1 - a) * den + 1) := rfl
      cases t with
      | zero =>
          rw [hcons, List.getD_cons_zero]
          simp
      | succ t =>
          have ht : t < tl.length := by
            simp only [List.length_cons] at h
            omega
          rw [hcons, List.getD_cons_succ, ih _ _ t ht]
          have hnum : ∑ i ∈ Finset.range (t + 1 + 1),
              (1 - a) ^ (t + 1 - i) * (x :: tl).getD i 0
              = (∑ i ∈ Finset.range (t + 1), (1 - a) ^ (t - i) * tl.getD i 0)
                + (1 - a) ^ (t + 1) * x := by
            rw [Finset.sum_range_succ']
            simp [Nat.succ_sub_succ]
          have hden : ∑ i ∈ Finset.range (t + 1 + 1), ((1 : ℚ) - a) ^ (t + 1 - i)
              = (∑ i ∈ Finset.range (t + 1), (1 - a) ^ (t - i)) + (1 - a) ^ (t + 1) := by
            rw [Finset.sum_range_succ']
            simp [Nat.succ_sub_succ]
          rw [hnum, hden]
          ring

/-- C7: EMA(span=20) is aligned with the series and defined from the first
bar onward (no undefined prefix), and at each index equals the exponentially
weighted mean of all closes so far with smoothing factor α = 2/(span+1) =
2/21 (pandas `adjust=True` weighting, weight `(1-α)^(t-i)` on bar `i`). -/
theorem ema20_defined_from_first_bar (xs : List ℚ) (t : Nat) (ht : t < xs.length) :
    (ewmMean 20 xs).length = xs.length ∧
    ewmAlpha 20 = 2 / (20 + 1) ∧
    (ewmMean 20 xs).getD t 0 =
      (∑ i ∈ Finset.range (t + 1), (1 - 2 / 21 : ℚ) ^ (t - i) * xs.getD i 0) /
      (∑ i ∈ Finset.range (t + 1), (1 - 2 / 21 : ℚ) ^ (t - i)) := by
  have halpha : ewmAlpha 20 = 2 / 21 := by
    unfold ewmAlpha
    norm_num
  refine ⟨ewmScan_length _ _ _ _, by rw [halpha]; norm_num, ?_⟩
  unfold ewmMean
  rw [ewmScan_getD _ _ _ _ t ht, halpha]
  simp

/-- Witness for C7 at a concrete 2-bar series and `t = 1`. -/
theorem ema20_defined_from_first_bar_witness :
    (ewmMean 20 [(4 : ℚ), 7]).length = [(4 : ℚ), 7].length ∧
    ewmAlpha 20 = 2 / (20 + 1) ∧
    (ewmMean 20 [(4 : ℚ), 7]).getD 1 0 =
      (∑ i ∈ Finset.range 2, (1 - 2 / 21 : ℚ) ^ (1 - i) * [(4 : ℚ), 7].getD i 0) /
      (∑ i ∈ Finset.range 2, (1 - 2 / 21 : ℚ) ^ (1 - i)) :=
  ema20_defined_from_first_bar [(4 : ℚ), 7] 1 (by simp)

/-! ### Dispatcher and fetch-handler theorems -/

/-- A concrete one-bar DataFrame used in closed instances below. -/
def exampleDf : DataFrame :=
  { dates := [0], openPrice := [1], highPrice := [1], lowPrice := [1],
    closePrice := [1], totalTradedQuantity := [1], vwapCol := none }

/-- A concrete DataFrame with no rows. -/
def emptyDf : DataFrame :=
  { dates := [], openPrice := [], highPrice := [], lowPrice := [],
    closePrice := [], totalTradedQuantity := [], vwapCol := none }

/-- C4 counterexample: the VWAP branch of `add_indicator` modifies the
stored DataFrame (it assigns the computed `VWAP` column into it), so the
series held in session state is not left untouched by every indicator
computation. -/
theorem vwap_branch_mutates_stored_frame :
    (add_indicator "VWAP" { data := exampleDf, traces := [] }).data ≠ exampleDf := by
  decide

/-- C4 (amended): no indicator computation alters the fetched price columns
of the stored DataFrame, and every indicator other than VWAP leaves the
stored DataFrame entirely unchanged; the VWAP branch only adds the computed
`VWAP` column. -/
theorem indicator_preserves_price_columns (ind : String) (s : DashState) :
    ((add_indicator ind s).data.dates = s.data.dates ∧
     (add_indicator ind s).data.openPrice = s.data.openPrice ∧
     (add_indicator ind s).data.highPrice = s.data.highPrice ∧
     (add_indicator ind s).data.lowPrice = s.data.lowPrice ∧
     (add_indicator ind s).data.closePrice = s.data.closePrice ∧
     (add_indicator ind s).data.totalTradedQuantity = s.data.totalTradedQuantity) ∧
    (ind ≠ "VWAP" → (add_indicator ind s).data = s.data) := by
  unfold add_indicator
  split_ifs with h1 h2 h3 h4 h5 h6 <;> simp_all

/-- Witness for C4 (amended) at a concrete selector and state. -/
theorem indicator_preserves_price_columns_witness :
    (((add_indicator "20-Day SMA" { data := exampleDf, traces := [] }).data.dates
        = exampleDf.dates ∧
      (add_indicator "20-Day SMA" { data := exampleDf, traces := [] }).data.openPrice
        = exampleDf.openPrice ∧
      (add_indicator "20-Day SMA" { data := exampleDf, traces := [] }).data.highPrice
        = exampleDf.highPrice ∧
      (add_indicator "20-Day SMA" { data := exampleDf, traces := [] }).data.lowPrice
        = exampleDf.lowPrice ∧
      (add_indicator "20-Day SMA" { data := exampleDf, traces := [] }).data.closePrice
        = exampleDf.closePrice ∧
      (add_indicator "20-Day SMA" { data := exampleDf, traces := [] }).data.totalTradedQuantity
        = exampleDf.totalTradedQuantity) ∧
     ("20-Day SMA" ≠ "VWAP" →
      (add_indicator "20-Day SMA" { data := exampleDf, traces := [] }).data = exampleDf)) :=
  indicator_preserves_price_columns "20-Day SMA" { data := exampleDf, traces := [] }

/-- C9: a selector string outside the six-name catalog falls through the
whole if/elif chain of `add_indicator`: no trace is added, no error is
raised, and both the chart and the stored series are unchanged. -/
theorem unknown_indicator_noop (ind : String) (s : DashState)
    (h : ind ∉ ["20-Day SMA", "20-Day EMA", "20-Day Bollinger Bands", "VWAP",
                "50-Day DMA", "200-Day DMA"]) :
    add_indicator ind s = s := by
  simp only [List.mem_cons, List.not_mem_nil, or_false, not_or] at h
  obtain ⟨h1, h2, h3, h4, h5, h6⟩ := h
  unfold add_indicator
  rw [if_neg h1, if_neg h2, if_neg h3, if_neg h4, if_neg h5, if_neg h6]

/-- Witness for C9 at the selector "RSI". -/
theorem unknown_indicator_noop_witness :
    add_indicator "RSI" { data := exampleDf, traces := [] }
      = { data := exampleDf, traces := [] } :=
  unknown_indicator_noop "RSI" { data := exampleDf, traces := [] } (by decide)

/-- C6: an empty provider DataFrame makes the fetch handler show the
user-visible no-data error and leave the session series untouched (the empty
result is not accepted for downstream analysis); the handler returns
normally, so no exception propagates. -/
theorem empty_fetch_reports_no_data (df : DataFrame) (sess : Option DataFrame)
    (h : df.isEmpty = true) :
    fetchHandler (FetchResult.fetched df) sess = (sess, Msg.errorNoData) := by
  show (if df.isEmpty = true then (sess, Msg.errorNoData) else (some df, Msg.success))
      = (sess, Msg.errorNoData)
  rw [if_pos h]

/-- Witness for C6 at the concrete empty DataFrame. -/
theorem empty_fetch_reports_no_data_witness :
    fetchHandler (FetchResult.fetched emptyDf) none = (none, Msg.errorNoData) :=
  empty_fetch_reports_no_data emptyDf none (by decide)

lemma activeData_nonempty (o : Option DataFrame) (df : DataFrame)
    (h : activeData o = some df) : df.isEmpty = false := by
  cases o with
  | none => exact absurd h (by simp [activeData])
  | some d =>
      cases hd : d.isEmpty with
      | false =>
          have hred : activeData (some d) = some d := by
            show (if d.isEmpty = true then none else some d) = some d
            rw [hd]
            simp
          rw [hred] at h
          rw [← Option.some.inj h]
          exact hd
      | true =>
          have hred : activeData (some d) = none := by
            show (if d.isEmpty = true then none else some d) = none
            rw [hd]
            simp
          rw [hred] at h
          exact absurd h (by simp)

/-- C10: the session slot is written only by a successful non-empty fetch
(failure and empty results leave it unchanged), the slot only ever holds
non-empty frames when it held one before, and any frame passed through the
line-77 guard to the indicator/charting stage is non-empty. -/
theorem fetch_atomic_session_invariant (r : FetchResult) (sess : Option DataFrame)
    (hsess : ∀ df, sess = some df → df.isEmpty = false) :
    ((fetchHandler r sess).1 ≠ sess →
      ∃ df, r = FetchResult.fetched df ∧ df.isEmpty = false ∧
        (fetchHandler r sess).1 = some df) ∧
    (∀ df, (fetchHandler r sess).1 = some df → df.isEmpty = false) ∧
    (∀ df, activeData (fetchHandler r sess).1 = some df → df.isEmpty = false) := by
  refine ⟨?_, ?_, fun df h => activeData_nonempty _ df h⟩
  · intro hne
    cases r with
    | raised m => exact absurd rfl hne
    | fetched df =>
        cases hd : df.isEmpty with
        | true =>
            have hred : fetchHandler (FetchResult.fetched df) sess
                = (sess, Msg.errorNoData) := by
              show (if df.isEmpty = true then (sess, Msg.errorNoData)
                  else (some df, Msg.success)) = (sess, Msg.errorNoData)
              rw [if_pos hd]
            rw [hred] at hne
            exact absurd rfl hne
        | false =>
            have hred : fetchHandler (FetchResult.fetched df) sess
                = (some df, Msg.success) := by
              show (if df.isEmpty = true then (sess, Msg.errorNoData)
                  else (some df, Msg.success)) = (some df, Msg.success)
              rw [hd]
              simp
            rw [hred]
            exact ⟨df, rfl, hd, rfl⟩
  · intro df hdf
    cases r with
    | raised m => exact hsess df hdf
    | fetched d =>
        cases hd : d.isEmpty with
        | true =>
            have hred : fetchHandler (FetchResult.fetched d) sess
                = (sess, Msg.errorNoData) := by
              show (if d.isEmpty = true then (sess, Msg.errorNoData)
                  else (some d, Msg.success)) = (sess, Msg.errorNoData)
              rw [if_pos hd]
            rw [hred] at hdf
            exact hsess df hdf
        | false =>
            have hred : fetchHandler (FetchResult.fetched d) sess
                = (some d, Msg.success) := by
              show (if d.isEmpty = true then (sess, Msg.errorNoData)
                  else (some d, Msg.success)) = (some d, Msg.success)
              rw [hd]
              simp
            rw [hred] at hdf
            rw [← Option.some.inj hdf]
            exact hd

/-- Witness for C10 at a concrete successful fetch into an empty session. -/
theorem fetch_atomic_session_invariant_witness :
    (((fetchHandler (FetchResult.fetched exampleDf) none).1 ≠ none →
      ∃ df, FetchResult.fetched exampleDf = FetchResult.fetched df ∧
        df.isEmpty = false ∧
        (fetchHandler (FetchResult.fetched exampleDf) none).1 = some df) ∧
    (∀ df, (fetchHandler (FetchResult.fetched exampleDf) none).1 = some df →
      df.isEmpty = false) ∧
    (∀ df, activeData (fetchHandler (FetchResult.fetched exampleDf) none).1 = some df →
      df.isEmpty = false)) :=
  fetch_atomic_session_invariant (FetchResult.fetched exampleDf) none
    (fun df h => Option.noConfusion h)

/-- C8 (modelled from the spec): for every model and horizon the Forecast
Adapter yields exactly `forecastDays` point-estimates, all numerically
identical (the fitted model evaluated on the fixed last-known lag-1 value). -/
theorem forecast_constant_sequence (f : ℚ → ℚ) (lastLag : ℚ) (N : Nat) :
    (forecastAdapter f lastLag N).length = N ∧
    forecastAdapter f lastLag N = List.replicate N (f lastLag) := by
  constructor
  · simp [forecastAdapter]
  · unfold forecastAdapter
    rw [List.map_const']
    simp
